import Mathlib

/-!
Shallow embedding of the training/evaluation control logic of the
Extensive-Study-of-Learning-based-Models-for-VD repository, together with
proofs about it.

Embedded code:
* `src/Graph/models/reveal/trainer.py` — the Reveal trainer (`train`,
  `evaluate`, `predict`), its early-stopping/patience loop, checkpointing,
  the `KeyboardInterrupt` handler, and the test-prediction export.
* `src/sequence/SVulD/run.py` — the SVulD trainer (`train`, `evaluate`,
  `detect`) and its test-prediction export.
* `src/LLM/run_zero_shot.py` — the GPU fan-out (`np.array_split` and the
  divisibility assert) and the per-prompt split-file merge loop.

Conventions: scores, losses and probabilities are rationals (the Python code
uses floats; none of the proved properties depend on rounding).  Model
parameter snapshots are an abstract type `M`.  Validation cycles are given to
the loops as the list of values the wrapped library calls would produce:
`(validation F1, model snapshot)` for Reveal and
`(validation F1, validation loss, model snapshot)` for SVulD.  Files on disk
are modelled as `Option` values (`none` = file absent).
-/

/-- JSON scalar values as they can appear in the `pred` field of the exported
prediction files: Reveal's export writes Python ints, SVulD's export writes
numpy booleans (which `json.dump` serializes as JSON booleans). -/
inductive JVal where
  | jint : ℤ → JVal
  | jbool : Bool → JVal
deriving DecidableEq

/-- Comparison of export records by their `id` field, the sort key used by
`ans.sort(key=lambda item: item['id'])` in the Reveal test export. -/
def idLe (a b : ℤ × JVal) : Prop := a.1 ≤ b.1

instance : DecidableRel idLe := fun a b => Int.decLe a.1 b.1

instance : IsTotal (ℤ × JVal) idLe := ⟨fun a b => Int.le_total a.1 b.1⟩

instance : IsTrans (ℤ × JVal) idLe := ⟨fun _ _ _ h h2 => le_trans h h2⟩

/-- True positives of `sklearn` binary metrics over parallel
(label, prediction) pairs; the positive class is `1`. -/
def tpCount (l : List (ℕ × ℕ)) : ℕ :=
  (l.filter (fun c => c.1 == 1 && c.2 == 1)).length

/-- False positives: predicted `1`, label not `1`. -/
def fpCount (l : List (ℕ × ℕ)) : ℕ :=
  (l.filter (fun c => !(c.1 == 1) && c.2 == 1)).length

/-- False negatives: label `1`, predicted not `1`. -/
def fnCount (l : List (ℕ × ℕ)) : ℕ :=
  (l.filter (fun c => c.1 == 1 && !(c.2 == 1))).length

/-- `sklearn.metrics.accuracy_score` over parallel (label, prediction)
pairs: fraction of exact matches. -/
def accuracy_score (l : List (ℕ × ℕ)) : ℚ :=
  ((l.filter (fun c => c.1 == c.2)).length : ℚ) / l.length

/-- `sklearn.metrics.precision_score` (binary, zero-division convention:
result 0 when nothing is predicted positive). -/
def precision_score (l : List (ℕ × ℕ)) : ℚ :=
  if tpCount l + fpCount l = 0 then 0
  else (tpCount l : ℚ) / (tpCount l + fpCount l)

/-- `sklearn.metrics.recall_score` (binary, zero-division convention:
result 0 when no positive labels are present). -/
def recall_score (l : List (ℕ × ℕ)) : ℚ :=
  if tpCount l + fnCount l = 0 then 0
  else (tpCount l : ℚ) / (tpCount l + fnCount l)

/-- `sklearn.metrics.f1_score` (binary): `2*TP / (2*TP + FP + FN)` with the
zero-division convention giving 0. -/
def f1_score (l : List (ℕ × ℕ)) : ℚ :=
  if 2 * tpCount l + fpCount l + fnCount l = 0 then 0
  else (2 * tpCount l : ℚ) / (2 * tpCount l + fpCount l + fnCount l)

/-- `np.argmax` over a two-entry probability row `(p0, p1)`: index of the
maximum, first index on ties — so `1` exactly when `p1` is strictly larger. -/
def argmax2 (p : ℚ × ℚ) : ℕ := if p.1 < p.2 then 1 else 0

/-- The four label-based metrics an evaluation pass returns. -/
structure EvalMetrics where
  acc : ℚ
  pr : ℚ
  rc : ℚ
  f1 : ℚ
deriving DecidableEq

namespace Reveal

variable {M : Type}

/-- Metric part of `evaluate` in `src/Graph/models/reveal/trainer.py:161-197`:
predictions are `np.argmax(probs, axis=-1)` over the two-class probability
rows, and the four metrics are computed from the parallel
(expectation, prediction) lists. -/
def evaluateMetrics (probs : List (ℚ × ℚ)) (targets : List ℕ) : EvalMetrics :=
  let predictions := probs.map argmax2
  let pairs := targets.zip predictions
  ⟨accuracy_score pairs, precision_score pairs, recall_score pairs, f1_score pairs⟩

/-- `predict` in `src/Graph/models/reveal/trainer.py:142-158`: the iterator
yields `(features, targets, ids)` triples, but only the features reach the
model; the result is the per-example `np.argmax` of the probabilities and
nothing else. -/
def predict {F : Type} (m : F → ℚ × ℚ) (batches : List (F × ℕ × ℤ)) : List ℕ :=
  batches.map (fun b => argmax2 (m b.1))

/-- State of the Reveal training loop
(`train` in `src/Graph/models/reveal/trainer.py:24-107`):
`bestF1`/`bestModel`/`patience` are the loop-local variables, `disk` models
the file `./<dataset_name>_best_f1.model` as `some (cycle index, snapshot)`
(1-based index of the validation cycle that wrote it), `model` is the
in-memory parameter state, `cycleIdx` counts validation cycles run, and
`stopped` records an early-stop exit (`break`). -/
structure TrainState (M : Type) where
  bestF1 : ℚ
  bestModel : Option M
  patience : ℕ
  disk : Option (ℕ × M)
  model : M
  cycleIdx : ℕ
  stopped : Bool
deriving DecidableEq

/-- Loop entry (`trainer.py:30-32`): `best_f1 = 0`, `best_model = None`,
`patience_counter = 0`; no checkpoint file exists yet. -/
def initState (m0 : M) : TrainState M :=
  ⟨0, none, 0, none, m0, 0, false⟩

/-- The improvement check of one validation cycle (`trainer.py:68-75`):
if `vf1 > best_f1` then reset patience, deep-copy the snapshot and write it
to disk; else increment the patience counter.  `c = (vf1, snapshot)`; the
in-memory model is the snapshot that was just validated. -/
def applyImprove (st : TrainState M) (c : ℚ × M) : TrainState M :=
  if st.bestF1 < c.1 then
    { st with
      bestF1 := c.1
      patience := 0
      bestModel := some c.2
      disk := some (st.cycleIdx + 1, c.2)
      model := c.2
      cycleIdx := st.cycleIdx + 1 }
  else
    { st with
      patience := st.patience + 1
      model := c.2
      cycleIdx := st.cycleIdx + 1 }

/-- The patience exit (`trainer.py:89-94`): when `patience_counter ==
max_patience`, restore the best snapshot (if any) into the model and leave
the loop. -/
def checkStop (maxPatience : ℕ) (st : TrainState M) : TrainState M :=
  if st.patience = maxPatience then
    { st with stopped := true, model := st.bestModel.getD st.model }
  else st

/-- One full validation cycle of the Reveal training loop. -/
def validStep (maxPatience : ℕ) (st : TrainState M) (c : ℚ × M) : TrainState M :=
  checkStop maxPatience (applyImprove st c)

/-- The training loop over a list of validation cycles, honouring the
early-stop `break`. -/
def run (maxPatience : ℕ) : List (ℚ × M) → TrainState M → TrainState M
  | [], st => st
  | c :: cs, st =>
    let st1 := validStep maxPatience st c
    if st1.stopped then st1 else run maxPatience cs st1

/-- The unconditional post-training load
`model.load_state_dict(torch.load(f'./{dataset_name}_best_f1.model'))`
(`trainer.py:106-107`): reading a file that was never written raises
`FileNotFoundError`. -/
def loadBest : Option (ℕ × M) → Except String M
  | none => Except.error "FileNotFoundError"
  | some c => Except.ok c.2

/-- Outcome of `train`'s try/except block (`trainer.py:34-101`).
`interruptAfter = some k` models a `KeyboardInterrupt` raised after `k`
validation cycles: the handler restores the best snapshot into the model (if
one exists) and falls through — it never re-raises, so the result is always
`Except.ok` and control reaches the test phase. -/
def trainResult (maxPatience : ℕ) (cycles : List (ℚ × M))
    (interruptAfter : Option ℕ) (m0 : M) : Except String (TrainState M) :=
  match interruptAfter with
  | none => Except.ok (run maxPatience cycles (initState m0))
  | some k =>
    let st := run maxPatience (cycles.take k) (initState m0)
    Except.ok { st with model := st.bestModel.getD st.model }

/-- Training followed by the post-training test phase (`trainer.py:105-107`):
an uncaught training error would propagate; otherwise the best-F1 checkpoint
file is loaded unconditionally. -/
def trainAndTest (maxPatience : ℕ) (cycles : List (ℚ × M))
    (interruptAfter : Option ℕ) (m0 : M) : Except String M :=
  match trainResult maxPatience cycles interruptAfter m0 with
  | Except.error e => Except.error e
  | Except.ok st => loadBest st.disk

/-- Test export (`trainer.py:117-122`): zip ids with the integer predictions,
sort ascending by id, dump as JSON. -/
def testExport (ids : List ℤ) (predications : List ℕ) : List (ℤ × JVal) :=
  List.insertionSort idLe
    ((ids.zip predications).map (fun c => (c.1, JVal.jint c.2)))

/-- Checkpoint correspondence invariant for the Reveal loop, relative to the
list of validation cycles actually processed: every processed score is at
most `bestF1`; if no checkpoint was written then nothing improved on the
initial `best_f1 = 0`; and the checkpoint on disk is exactly the in-memory
best snapshot, taken at a processed cycle whose F1 equals `bestF1`. -/
def CkptInv (processed : List (ℚ × M)) (st : TrainState M) : Prop :=
  (∀ c ∈ processed, c.1 ≤ st.bestF1) ∧
  (st.disk = none → st.bestModel = none ∧ st.bestF1 = 0) ∧
  (∀ i m, st.disk = some (i, m) →
    st.bestModel = some m ∧ (st.bestF1, m) ∈ processed) ∧
  (∀ m, st.bestModel = some m → ∃ i, st.disk = some (i, m))

end Reveal

namespace SVulD

variable {M : Type}

/-- State of the module-level `EarlyStopping` object used by the SVulD
trainer (`early_stopping = EarlyStopping()` in `src/sequence/SVulD/run.py`). -/
structure ESState where
  best : Option ℚ
  counter : ℕ
  early_stop : Bool
deriving DecidableEq

/-- Modelled from the spec: `utils.early_stopping.EarlyStopping.__call__` is
imported by `src/sequence/SVulD/run.py` but its source is not under `src/`.
Per spec §4.5 and the `EarlyStoppingState` data model (§3): the object tracks
the best (lowest) monitored validation loss; a strict improvement resets the
patience counter to 0, otherwise the counter increments, and reaching
`max_patience` transitions to the terminal stopped state. -/
def esCall (maxPatience : ℕ) (es : ESState) (loss : ℚ) : ESState :=
  match es.best with
  | none => { best := some loss, counter := 0, early_stop := es.early_stop }
  | some b =>
    if loss < b then { best := some loss, counter := 0, early_stop := es.early_stop }
    else
      { best := some b
        counter := es.counter + 1
        early_stop := es.early_stop || decide (maxPatience ≤ es.counter + 1) }

/-- State of the SVulD training loop (`train` in
`src/sequence/SVulD/run.py:131-210`): `bestF1` is the loop-local `best_f1`,
`disk` models `<output_dir>/checkpoint-best-f1/model.bin` as
`some (cycle index, snapshot)`, `es` is the global `EarlyStopping` object. -/
structure TrainState (M : Type) where
  bestF1 : ℚ
  disk : Option (ℕ × M)
  es : ESState
  cycleIdx : ℕ
deriving DecidableEq

/-- Loop entry: `best_f1 = 0` (`run.py:159`), fresh `EarlyStopping()`, no
checkpoint file. -/
def initState : TrainState M :=
  ⟨0, none, ⟨none, 0, false⟩, 0⟩

/-- The checkpoint decision of one validation cycle (`run.py:192-205`): the
checkpoint file is (over)written exactly when `results['f1'] > best_f1`.
`c = (validation F1, validation loss, snapshot)`. -/
def applyImprove (st : TrainState M) (c : ℚ × ℚ × M) : TrainState M :=
  if st.bestF1 < c.1 then
    { st with
      bestF1 := c.1
      disk := some (st.cycleIdx + 1, c.2.2)
      cycleIdx := st.cycleIdx + 1 }
  else
    { st with cycleIdx := st.cycleIdx + 1 }

/-- One full validation cycle (`run.py:187-210`): evaluate, maybe write the
best-F1 checkpoint, then feed the validation loss to `early_stopping`. -/
def validStep (maxPatience : ℕ) (st : TrainState M) (c : ℚ × ℚ × M) :
    TrainState M :=
  let st1 := applyImprove st c
  { st1 with es := esCall maxPatience st1.es c.2.1 }

/-- The SVulD training loop: `break` once `early_stopping.early_stop` is set
(`run.py:207-210`). -/
def run (maxPatience : ℕ) : List (ℚ × ℚ × M) → TrainState M → TrainState M
  | [], st => st
  | c :: cs, st =>
    let st1 := validStep maxPatience st c
    if st1.es.early_stop then st1 else run maxPatience cs st1

/-- Metric part of `evaluate` in `src/sequence/SVulD/run.py:213-262`:
predictions are `logits[:, 1] > 0.5` (numpy booleans, coerced to 0/1 by the
sklearn metric calls). -/
def evaluateMetrics (logits : List (ℚ × ℚ)) (labels : List ℕ) : EvalMetrics :=
  let preds := logits.map (fun p => if (1 : ℚ) / 2 < p.2 then (1 : ℕ) else 0)
  let pairs := labels.zip preds
  ⟨accuracy_score pairs, precision_score pairs, recall_score pairs, f1_score pairs⟩

/-- Test export (`run.py:466-468`): `pd.DataFrame({"id": indices, "pred":
preds}).to_dict("records")` dumped as JSON — records stay in dataset order
(no sort) and the predictions are booleans. -/
def testExport (indices : List ℤ) (preds : List Bool) : List (ℤ × JVal) :=
  (indices.zip preds).map (fun c => (c.1, JVal.jbool c.2))

/-- Numpy's coercion of a boolean prediction to 0/1 when it meets integer
labels inside the sklearn metric calls. -/
def predNat (b : Bool) : ℕ := if b then 1 else 0

/-- `detect` in `src/sequence/SVulD/run.py:326-364`: every batch's label
column is read from the input dataset, predictions are thresholded logits of
the contrast sequence, and the returned result dict is
`{"acc": accuracy_score(labels, preds)}` together with indices and preds. -/
def detect {F : Type} (m : F → ℚ × ℚ) (contrasts : List F) (labels : List ℕ)
    (indices : List ℤ) : ℚ × List ℤ × List Bool :=
  let preds := contrasts.map (fun x => decide ((1 : ℚ) / 2 < (m x).2))
  (accuracy_score (labels.zip (preds.map predNat)), indices, preds)

/-- Checkpoint correspondence invariant for the SVulD loop, relative to the
processed validation cycles: every processed F1 is at most `bestF1`; a
missing checkpoint means nothing improved on the initial `best_f1 = 0`; and
the checkpoint on disk is the snapshot of a processed cycle whose F1 equals
`bestF1`. -/
def CkptInv (processed : List (ℚ × ℚ × M)) (st : TrainState M) : Prop :=
  (∀ c ∈ processed, c.1 ≤ st.bestF1) ∧
  (st.disk = none → st.bestF1 = 0) ∧
  (∀ i m, st.disk = some (i, m) → ∃ l, (st.bestF1, l, m) ∈ processed)

end SVulD

namespace ZeroShot

/-- The GPU list constant of `src/LLM/run_zero_shot.py:8`. -/
def all_gpus : List ℕ := [0, 1, 6, 7]

/-- The split count constant of `src/LLM/run_zero_shot.py:9`. -/
def split_cnt : ℕ := 2

/-- The guard `assert len(all_gpus) % split_cnt == 0`
(`run_zero_shot.py:13`): the script proceeds exactly when this is `true` and
raises `AssertionError` otherwise. -/
def assertOK (gpus : List ℕ) (sc : ℕ) : Bool := gpus.length % sc == 0

/-- Section sizes of `np.array_split(l, n)`: the first `len % n` sections
receive one extra element. -/
def splitSizes (len n : ℕ) : List ℕ :=
  (List.range n).map (fun i => len / n + if i < len % n then 1 else 0)

/-- Cut a list into consecutive chunks of the given sizes. -/
def takeChunks : List ℕ → List ℕ → List (List ℕ)
  | _, [] => []
  | l, s :: ss => l.take s :: takeChunks (l.drop s) ss

/-- `np.array_split` as used in `run_zero_shot.py:17`: consecutive sections
following `splitSizes`. -/
def array_split (l : List ℕ) (n : ℕ) : List (List ℕ) :=
  takeChunks l (splitSizes l.length n)

/-- Concatenation of the chunks, i.e. all GPUs handed out across the
subprocess command lines, in order. -/
def flattenChunks : List (List ℕ) → List ℕ
  | [] => []
  | c :: cs => c ++ flattenChunks cs

/-- Reading the per-split result files
`prompt_<p>_result_split_<j>.json` for `j = 0 .. n-1` and extending the merge
list in ascending split order (`run_zero_shot.py:35-37`); opening a missing
file raises `FileNotFoundError`.  `f j` is the content of split `j`'s file. -/
def readSplits {α : Type} (f : ℕ → Option (List α)) : ℕ → Except String (List α)
  | 0 => Except.ok []
  | n + 1 =>
    match readSplits f n, f n with
    | Except.error e, _ => Except.error e
    | Except.ok _, none => Except.error "FileNotFoundError"
    | Except.ok pre, some l => Except.ok (pre ++ l)

/-- Concatenation of the per-split result arrays in ascending split-index
order — the contents the merged file is expected to hold. -/
def splitConcat {α : Type} (g : ℕ → List α) : ℕ → List α
  | 0 => []
  | n + 1 => splitConcat g n ++ g n

/-- The merge loop (`run_zero_shot.py:29-39`), iterating prompt ids `p, p+1,
...` with `n` iterations left (started at `p = 0`, `n = 100`): `break` as
soon as the prompt's split-0 file is missing; otherwise read all split files
(an error aborts the script) and write the merged file.  Returns the merged
files written, paired with the uncaught exception, if any. -/
def mergeFrom {α : Type} (fs : ℕ → ℕ → Option (List α)) (sc : ℕ) :
    ℕ → ℕ → List (ℕ × List α) × Option String
  | _, 0 => ([], none)
  | p, n + 1 =>
    match fs p 0 with
    | none => ([], none)
    | some _ =>
      match readSplits (fs p) sc with
      | Except.error e => ([], some e)
      | Except.ok merged =>
        let rest := mergeFrom fs sc (p + 1) n
        ((p, merged) :: rest.1, rest.2)

/-- The whole merge step: `for prompt_id in range(100)` starting at 0.
`fs p j` is the content of `prompt_<p>_result_split_<j>.json` (or `none` if
the file is missing). -/
def mergeAll {α : Type} (fs : ℕ → ℕ → Option (List α)) (sc : ℕ) :
    List (ℕ × List α) × Option String :=
  mergeFrom fs sc 0 100

end ZeroShot

/-! ## Metric aggregator properties -/

theorem ratDiv_nonneg_le_one (a b : ℚ) (h0 : 0 ≤ a) (h : a ≤ b) :
    0 ≤ a / b ∧ a / b ≤ 1 :=
  ⟨div_nonneg h0 (le_trans h0 h), div_le_one_of_le h (le_trans h0 h)⟩

theorem accuracy_score_bounds (l : List (ℕ × ℕ)) :
    0 ≤ accuracy_score l ∧ accuracy_score l ≤ 1 := by
  unfold accuracy_score
  exact ratDiv_nonneg_le_one _ _ (Nat.cast_nonneg _)
    (Nat.cast_le.mpr (List.length_filter_le _ l))

theorem precision_score_bounds (l : List (ℕ × ℕ)) :
    0 ≤ precision_score l ∧ precision_score l ≤ 1 := by
  unfold precision_score
  split
  · norm_num
  · refine ratDiv_nonneg_le_one _ _ (Nat.cast_nonneg _) ?_
    have := Nat.cast_nonneg (α := ℚ) (fpCount l)
    linarith

theorem recall_score_bounds (l : List (ℕ × ℕ)) :
    0 ≤ recall_score l ∧ recall_score l ≤ 1 := by
  unfold recall_score
  split
  · norm_num
  · refine ratDiv_nonneg_le_one _ _ (Nat.cast_nonneg _) ?_
    have := Nat.cast_nonneg (α := ℚ) (fnCount l)
    linarith

theorem f1_score_bounds (l : List (ℕ × ℕ)) :
    0 ≤ f1_score l ∧ f1_score l ≤ 1 := by
  unfold f1_score
  split
  · norm_num
  · refine ratDiv_nonneg_le_one _ _ ?_ ?_
    · positivity
    · have := Nat.cast_nonneg (α := ℚ) (fpCount l)
      have := Nat.cast_nonneg (α := ℚ) (fnCount l)
      linarith

theorem f1_score_harmonic (l : List (ℕ × ℕ))
    (h : 0 < precision_score l + recall_score l) :
    f1_score l = 2 * precision_score l * recall_score l
      / (precision_score l + recall_score l) := by
  by_cases htp : tpCount l = 0
  · exfalso
    have hp : precision_score l = 0 := by
      unfold precision_score
      rw [htp]
      split <;> simp
    have hr : recall_score l = 0 := by
      unfold recall_score
      rw [htp]
      split <;> simp
    rw [hp, hr] at h
    exact lt_irrefl 0 (by simpa using h)
  · have htp2 : 0 < (tpCount l : ℚ) := by exact_mod_cast Nat.pos_of_ne_zero htp
    have hfp0 := Nat.cast_nonneg (α := ℚ) (fpCount l)
    have hfn0 := Nat.cast_nonneg (α := ℚ) (fnCount l)
    have hap : (0 : ℚ) < (tpCount l : ℚ) + fpCount l := by linarith
    have har : (0 : ℚ) < (tpCount l : ℚ) + fnCount l := by linarith
    have hfd : (0 : ℚ) < 2 * (tpCount l : ℚ) + fpCount l + fnCount l := by linarith
    have hpe : precision_score l = (tpCount l : ℚ) / (tpCount l + fpCount l) := by
      unfold precision_score
      rw [if_neg (by omega)]
    have hre : recall_score l = (tpCount l : ℚ) / (tpCount l + fnCount l) := by
      unfold recall_score
      rw [if_neg (by omega)]
    have hfe : f1_score l
        = (2 * tpCount l : ℚ) / (2 * tpCount l + fpCount l + fnCount l) := by
      unfold f1_score
      rw [if_neg (by omega)]
    rw [hpe, hre] at h ⊢
    rw [hfe]
    have h1 : ((tpCount l : ℚ) + fpCount l) ≠ 0 := ne_of_gt hap
    have h2 : ((tpCount l : ℚ) + fnCount l) ≠ 0 := ne_of_gt har
    have h3 : (2 * (tpCount l : ℚ) + fpCount l + fnCount l) ≠ 0 := ne_of_gt hfd
    have h4 : (tpCount l : ℚ) / (tpCount l + fpCount l)
        + (tpCount l : ℚ) / (tpCount l + fnCount l) ≠ 0 := ne_of_gt h
    field_simp
    ring

/-- Claim C8: for every evaluation over a split in which both classes are
present, the computed accuracy, precision, recall and F1 of both the Reveal
`evaluate` and the SVulD `evaluate` lie in `[0, 1]`, and whenever
`precision + recall > 0` the F1 equals the harmonic mean
`2 * precision * recall / (precision + recall)` (exact over ℚ). -/
theorem c8_metric_bounds_and_f1_harmonic
    (probs : List (ℚ × ℚ)) (targets : List ℕ)
    (logits : List (ℚ × ℚ)) (labels : List ℕ)
    (hT1 : 1 ∈ targets) (hT0 : 0 ∈ targets)
    (hL1 : 1 ∈ labels) (hL0 : 0 ∈ labels) :
    ((0 ≤ (Reveal.evaluateMetrics probs targets).acc
        ∧ (Reveal.evaluateMetrics probs targets).acc ≤ 1)
      ∧ (0 ≤ (Reveal.evaluateMetrics probs targets).pr
        ∧ (Reveal.evaluateMetrics probs targets).pr ≤ 1)
      ∧ (0 ≤ (Reveal.evaluateMetrics probs targets).rc
        ∧ (Reveal.evaluateMetrics probs targets).rc ≤ 1)
      ∧ (0 ≤ (Reveal.evaluateMetrics probs targets).f1
        ∧ (Reveal.evaluateMetrics probs targets).f1 ≤ 1)
      ∧ (0 < (Reveal.evaluateMetrics probs targets).pr
            + (Reveal.evaluateMetrics probs targets).rc →
          (Reveal.evaluateMetrics probs targets).f1
            = 2 * (Reveal.evaluateMetrics probs targets).pr
                * (Reveal.evaluateMetrics probs targets).rc
              / ((Reveal.evaluateMetrics probs targets).pr
                + (Reveal.evaluateMetrics probs targets).rc)))
    ∧ ((0 ≤ (SVulD.evaluateMetrics logits labels).acc
        ∧ (SVulD.evaluateMetrics logits labels).acc ≤ 1)
      ∧ (0 ≤ (SVulD.evaluateMetrics logits labels).pr
        ∧ (SVulD.evaluateMetrics logits labels).pr ≤ 1)
      ∧ (0 ≤ (SVulD.evaluateMetrics logits labels).rc
        ∧ (SVulD.evaluateMetrics logits labels).rc ≤ 1)
      ∧ (0 ≤ (SVulD.evaluateMetrics logits labels).f1
        ∧ (SVulD.evaluateMetrics logits labels).f1 ≤ 1)
      ∧ (0 < (SVulD.evaluateMetrics logits labels).pr
            + (SVulD.evaluateMetrics logits labels).rc →
          (SVulD.evaluateMetrics logits labels).f1
            = 2 * (SVulD.evaluateMetrics logits labels).pr
                * (SVulD.evaluateMetrics logits labels).rc
              / ((SVulD.evaluateMetrics logits labels).pr
                + (SVulD.evaluateMetrics logits labels).rc))) :=
  ⟨⟨accuracy_score_bounds _, precision_score_bounds _, recall_score_bounds _,
      f1_score_bounds _, fun h => f1_score_harmonic _ h⟩,
    ⟨accuracy_score_bounds _, precision_score_bounds _, recall_score_bounds _,
      f1_score_bounds _, fun h => f1_score_harmonic _ h⟩⟩

/-- Witness for `c8_metric_bounds_and_f1_harmonic` at a concrete two-example
split containing both classes. -/
theorem c8_witness :
    (0 ≤ (Reveal.evaluateMetrics [((0 : ℚ), (1 : ℚ)), (1, 0)] [1, 0]).acc
      ∧ (Reveal.evaluateMetrics [((0 : ℚ), (1 : ℚ)), (1, 0)] [1, 0]).acc ≤ 1)
    ∧ (0 ≤ (SVulD.evaluateMetrics [((0 : ℚ), (1 : ℚ)), (1, 0)] [1, 0]).acc
      ∧ (SVulD.evaluateMetrics [((0 : ℚ), (1 : ℚ)), (1, 0)] [1, 0]).acc ≤ 1) :=
  ⟨(c8_metric_bounds_and_f1_harmonic [((0 : ℚ), (1 : ℚ)), (1, 0)] [1, 0]
      [((0 : ℚ), (1 : ℚ)), (1, 0)] [1, 0]
      (by decide) (by decide) (by decide) (by decide)).1.1,
    (c8_metric_bounds_and_f1_harmonic [((0 : ℚ), (1 : ℚ)), (1, 0)] [1, 0]
      [((0 : ℚ), (1 : ℚ)), (1, 0)] [1, 0]
      (by decide) (by decide) (by decide) (by decide)).2.1⟩

/-! ## Reveal early-stopping loop: step lemmas -/

theorem checkStop_patience {M : Type} (mp : ℕ) (st : Reveal.TrainState M) :
    (Reveal.checkStop mp st).patience = st.patience := by
  unfold Reveal.checkStop
  split <;> rfl

theorem checkStop_disk {M : Type} (mp : ℕ) (st : Reveal.TrainState M) :
    (Reveal.checkStop mp st).disk = st.disk := by
  unfold Reveal.checkStop
  split <;> rfl

theorem checkStop_bestF1 {M : Type} (mp : ℕ) (st : Reveal.TrainState M) :
    (Reveal.checkStop mp st).bestF1 = st.bestF1 := by
  unfold Reveal.checkStop
  split <;> rfl

theorem checkStop_bestModel {M : Type} (mp : ℕ) (st : Reveal.TrainState M) :
    (Reveal.checkStop mp st).bestModel = st.bestModel := by
  unfold Reveal.checkStop
  split <;> rfl

theorem checkStop_cycleIdx {M : Type} (mp : ℕ) (st : Reveal.TrainState M) :
    (Reveal.checkStop mp st).cycleIdx = st.cycleIdx := by
  unfold Reveal.checkStop
  split <;> rfl

theorem checkStop_stopped {M : Type} (mp : ℕ) (st : Reveal.TrainState M) :
    (Reveal.checkStop mp st).stopped
      = (st.stopped || decide (st.patience = mp)) := by
  unfold Reveal.checkStop
  split <;> simp_all

theorem applyImprove_pos {M : Type} (st : Reveal.TrainState M) (c : ℚ × M)
    (h : st.bestF1 < c.1) :
    Reveal.applyImprove st c
      = { st with
          bestF1 := c.1
          patience := 0
          bestModel := some c.2
          disk := some (st.cycleIdx + 1, c.2)
          model := c.2
          cycleIdx := st.cycleIdx + 1 } := by
  unfold Reveal.applyImprove
  rw [if_pos h]

theorem applyImprove_neg {M : Type} (st : Reveal.TrainState M) (c : ℚ × M)
    (h : ¬ st.bestF1 < c.1) :
    Reveal.applyImprove st c
      = { st with
          patience := st.patience + 1
          model := c.2
          cycleIdx := st.cycleIdx + 1 } := by
  unfold Reveal.applyImprove
  rw [if_neg h]

theorem run_cons {M : Type} (mp : ℕ) (c : ℚ × M) (cs : List (ℚ × M))
    (st : Reveal.TrainState M) :
    Reveal.run mp (c :: cs) st
      = if (Reveal.validStep mp st c).stopped then Reveal.validStep mp st c
        else Reveal.run mp cs (Reveal.validStep mp st c) := rfl

/-- Claim C2: on each validation cycle of the Reveal loop, the patience
counter resets to 0 and a checkpoint is written exactly when the monitored F1
strictly improves; otherwise the counter increments by one and the checkpoint
file is untouched; the loop stops exactly when the (updated) counter reaches
`max_patience`.  On the synthetic monitored sequence `[1,2,3,2,2,2]` with
`max_patience = 3` (snapshots numbered 1..6), the loop reaches the terminal
stopped state exactly at cycle 6, and the retained checkpoint (and restored
model) is the one snapshotted at cycle 3. -/
theorem c2_early_stopping_policy (maxPatience : ℕ) (st : Reveal.TrainState ℕ)
    (c : ℚ × ℕ) (hs : st.stopped = false) :
    (st.bestF1 < c.1 →
      (Reveal.validStep maxPatience st c).patience = 0 ∧
      (Reveal.validStep maxPatience st c).disk = some (st.cycleIdx + 1, c.2)) ∧
    (¬ st.bestF1 < c.1 →
      (Reveal.validStep maxPatience st c).patience = st.patience + 1 ∧
      (Reveal.validStep maxPatience st c).disk = st.disk) ∧
    ((Reveal.validStep maxPatience st c).stopped = true ↔
      (Reveal.validStep maxPatience st c).patience = maxPatience) ∧
    ((Reveal.run 3 [((1 : ℚ), (1 : ℕ)), (2, 2), (3, 3), (2, 4), (2, 5), (2, 6)]
        (Reveal.initState 0)).stopped = true ∧
      (Reveal.run 3 [((1 : ℚ), (1 : ℕ)), (2, 2), (3, 3), (2, 4), (2, 5), (2, 6)]
        (Reveal.initState 0)).cycleIdx = 6 ∧
      (Reveal.run 3 [((1 : ℚ), (1 : ℕ)), (2, 2), (3, 3), (2, 4), (2, 5), (2, 6)]
        (Reveal.initState 0)).disk = some (3, 3) ∧
      (Reveal.run 3 [((1 : ℚ), (1 : ℕ)), (2, 2), (3, 3), (2, 4), (2, 5), (2, 6)]
        (Reveal.initState 0)).model = 3) := by
  refine ⟨?_, ?_, ?_, by decide⟩
  · intro h
    unfold Reveal.validStep
    rw [applyImprove_pos st c h, checkStop_patience, checkStop_disk]
    exact ⟨rfl, rfl⟩
  · intro h
    unfold Reveal.validStep
    rw [applyImprove_neg st c h, checkStop_patience, checkStop_disk]
    exact ⟨rfl, rfl⟩
  · unfold Reveal.validStep
    rw [checkStop_stopped, checkStop_patience]
    have hstop : (Reveal.applyImprove st c).stopped = false := by
      unfold Reveal.applyImprove
      split <;> simpa using hs
    rw [hstop]
    simp

/-- Witness for `c2_early_stopping_policy`: an improving first cycle resets
patience to 0 and writes the checkpoint of cycle 1. -/
theorem c2_witness :
    (Reveal.validStep 3 (Reveal.initState 0) ((1 : ℚ), (7 : ℕ))).patience = 0 ∧
    (Reveal.validStep 3 (Reveal.initState 0) ((1 : ℚ), (7 : ℕ))).disk
      = some (1, 7) :=
  (c2_early_stopping_policy 3 (Reveal.initState 0) ((1 : ℚ), (7 : ℕ))
    (by decide)).1 (by decide)

/-! ## Reveal loop when validation F1 never improves -/

theorem reveal_run_allzero {M : Type} (maxPatience : ℕ)
    (cycles : List (ℚ × M)) :
    ∀ st : Reveal.TrainState M, st.bestF1 = 0 → st.disk = none →
      st.bestModel = none → st.stopped = false →
      st.patience < maxPatience → (∀ c ∈ cycles, c.1 = 0) →
      (Reveal.run maxPatience cycles st).disk = none ∧
      (Reveal.run maxPatience cycles st).bestModel = none ∧
      (Reveal.run maxPatience cycles st).patience
        = min maxPatience (st.patience + cycles.length) := by
  induction cycles with
  | nil =>
    intro st h1 h2 h3 h4 h5 h6
    refine ⟨h2, h3, ?_⟩
    simp [Reveal.run]
    omega
  | cons c cs ih =>
    intro st h1 h2 h3 h4 h5 h6
    have hc : c.1 = 0 := h6 c (List.mem_cons_self c cs)
    have hni : ¬ st.bestF1 < c.1 := by
      rw [h1, hc]
      exact lt_irrefl 0
    have hA := applyImprove_neg st c hni
    by_cases hmp : st.patience + 1 = maxPatience
    · have hstop : (Reveal.validStep maxPatience st c).stopped = true := by
        unfold Reveal.validStep
        rw [checkStop_stopped, hA]
        simp [hmp]
      rw [run_cons, if_pos hstop]
      unfold Reveal.validStep
      rw [checkStop_disk, checkStop_bestModel, checkStop_patience, hA]
      refine ⟨h2, h3, ?_⟩
      simp
      omega
    · have hstop : (Reveal.validStep maxPatience st c).stopped = false := by
        unfold Reveal.validStep
        rw [checkStop_stopped, hA]
        simp [hmp, h4]
      have hCS : Reveal.checkStop maxPatience (Reveal.applyImprove st c)
          = Reveal.applyImprove st c := by
        unfold Reveal.checkStop
        rw [hA]
        simp [hmp]
      rw [run_cons, if_neg (by rw [hstop]; exact Bool.false_ne_true)]
      unfold Reveal.validStep
      rw [hCS, hA]
      have := ih { st with
          patience := st.patience + 1
          model := c.2
          cycleIdx := st.cycleIdx + 1 }
        (by simpa using h1) (by simpa using h2) (by simpa using h3)
        (by simpa using h4) (by simpa using Nat.lt_of_le_of_ne h5 hmp)
        (fun x hx => h6 x (List.mem_cons_of_mem c hx))
      refine ⟨this.1, this.2.1, ?_⟩
      rw [this.2.2]
      simp
      omega

/-- Claim C9: in the Reveal trainer an improvement requires the validation F1
to be strictly greater than the best seen so far, which is initialized to 0;
so in a run where every validation cycle yields F1 = 0, no checkpoint file is
ever written, no in-memory best snapshot exists, the patience counter
increments at every validation cycle until training stops (it ends at
`min max_patience (number of cycles)`), and the unconditional post-training
load of `./<dataset_name>_best_f1.model` fails with `FileNotFoundError`
because the file does not exist. -/
theorem c9_all_zero_f1_no_checkpoint_load_fails (maxPatience : ℕ)
    (cycles : List (ℚ × ℕ)) (m0 : ℕ) (hmp : 0 < maxPatience)
    (hz : ∀ c ∈ cycles, c.1 = 0) :
    (Reveal.run maxPatience cycles (Reveal.initState m0)).disk = none ∧
    (Reveal.run maxPatience cycles (Reveal.initState m0)).bestModel = none ∧
    (Reveal.run maxPatience cycles (Reveal.initState m0)).patience
      = min maxPatience cycles.length ∧
    Reveal.loadBest (Reveal.run maxPatience cycles (Reveal.initState m0)).disk
      = Except.error "FileNotFoundError" := by
  have h := reveal_run_allzero maxPatience cycles (Reveal.initState m0)
    rfl rfl rfl rfl hmp hz
  refine ⟨h.1, h.2.1, by simpa [Reveal.initState] using h.2.2, ?_⟩
  rw [h.1]
  rfl

/-- Witness for `c9_all_zero_f1_no_checkpoint_load_fails` at a concrete
three-cycle run with `max_patience = 2`. -/
theorem c9_witness :
    (Reveal.run 2 [((0 : ℚ), (5 : ℕ)), (0, 6), (0, 7)]
      (Reveal.initState 0)).disk = none ∧
    (Reveal.run 2 [((0 : ℚ), (5 : ℕ)), (0, 6), (0, 7)]
      (Reveal.initState 0)).bestModel = none ∧
    (Reveal.run 2 [((0 : ℚ), (5 : ℕ)), (0, 6), (0, 7)]
      (Reveal.initState 0)).patience = min 2 3 ∧
    Reveal.loadBest
      (Reveal.run 2 [((0 : ℚ), (5 : ℕ)), (0, 6), (0, 7)]
        (Reveal.initState 0)).disk
      = Except.error "FileNotFoundError" :=
  c9_all_zero_f1_no_checkpoint_load_fails 2 [((0 : ℚ), (5 : ℕ)), (0, 6), (0, 7)]
    0 (by decide) (by decide)

/-! ## Checkpoint correspondence invariants -/

theorem reveal_ckptInv_init {M : Type} (m0 : M) :
    Reveal.CkptInv [] (Reveal.initState m0) := by
  refine ⟨by simp, fun _ => ⟨rfl, rfl⟩, ?_, ?_⟩
  · intro i m h
    simp [Reveal.initState] at h
  · intro m h
    simp [Reveal.initState] at h

theorem reveal_ckptInv_step {M : Type} (mp : ℕ) (processed : List (ℚ × M))
    (st : Reveal.TrainState M) (c : ℚ × M) (h : Reveal.CkptInv processed st) :
    Reveal.CkptInv (processed ++ [c]) (Reveal.validStep mp st c) := by
  obtain ⟨h1, h2, h3, h4⟩ := h
  unfold Reveal.validStep
  by_cases himp : st.bestF1 < c.1
  · rw [applyImprove_pos st c himp]
    refine ⟨?_, ?_, ?_, ?_⟩
    · intro x hx
      rw [checkStop_bestF1]
      rcases List.mem_append.mp hx with hx | hx
      · exact le_of_lt (lt_of_le_of_lt (h1 x hx) himp)
      · simp at hx
        rw [hx]
    · intro hd
      rw [checkStop_disk] at hd
      simp at hd
    · intro i m hd
      rw [checkStop_disk] at hd
      simp at hd
      rw [checkStop_bestModel, checkStop_bestF1]
      refine ⟨by simp [hd.2], ?_⟩
      rw [← hd.2]
      simp
    · intro m hm
      rw [checkStop_bestModel] at hm
      simp at hm
      rw [checkStop_disk]
      exact ⟨st.cycleIdx + 1, by simp [hm]⟩
  · rw [applyImprove_neg st c himp]
    refine ⟨?_, ?_, ?_, ?_⟩
    · intro x hx
      rw [checkStop_bestF1]
      rcases List.mem_append.mp hx with hx | hx
      · simpa using h1 x hx
      · simp at hx
        rw [hx]
        simpa using le_of_not_lt himp
    · intro hd
      rw [checkStop_disk] at hd
      simp at hd
      have := h2 hd
      rw [checkStop_bestModel, checkStop_bestF1]
      simpa using this
    · intro i m hd
      rw [checkStop_disk] at hd
      simp at hd
      have := h3 i m hd
      rw [checkStop_bestModel, checkStop_bestF1]
      refine ⟨by simpa using this.1, ?_⟩
      simpa using List.mem_append_left [c] this.2
    · intro m hm
      rw [checkStop_bestModel] at hm
      simp at hm
      have := h4 m hm
      rw [checkStop_disk]
      simpa using this

theorem reveal_ckptInv_run {M : Type} (mp : ℕ) (cycles : List (ℚ × M)) :
    ∀ (st : Reveal.TrainState M) (processed : List (ℚ × M)),
      Reveal.CkptInv processed st →
      ∃ pre suf, cycles = pre ++ suf ∧
        Reveal.CkptInv (processed ++ pre) (Reveal.run mp cycles st) := by
  induction cycles with
  | nil =>
    intro st processed h
    exact ⟨[], [], rfl, by simpa using h⟩
  | cons c cs ih =>
    intro st processed h
    have h1 := reveal_ckptInv_step mp processed st c h
    cases hstop : (Reveal.validStep mp st c).stopped with
    | true =>
      refine ⟨[c], cs, rfl, ?_⟩
      rw [run_cons, if_pos hstop]
      simpa using h1
    | false =>
      obtain ⟨pre, suf, hsplit, hinv⟩ := ih (Reveal.validStep mp st c)
        (processed ++ [c]) h1
      refine ⟨c :: pre, suf, by simp [hsplit], ?_⟩
      rw [run_cons, if_neg (by rw [hstop]; exact Bool.false_ne_true)]
      simpa using hinv

/-! ## SVulD loop lemmas -/

theorem svuld_applyImprove_pos {M : Type} (st : SVulD.TrainState M)
    (c : ℚ × ℚ × M) (h : st.bestF1 < c.1) :
    SVulD.applyImprove st c
      = { st with
          bestF1 := c.1
          disk := some (st.cycleIdx + 1, c.2.2)
          cycleIdx := st.cycleIdx + 1 } := by
  unfold SVulD.applyImprove
  rw [if_pos h]

theorem svuld_applyImprove_neg {M : Type} (st : SVulD.TrainState M)
    (c : ℚ × ℚ × M) (h : ¬ st.bestF1 < c.1) :
    SVulD.applyImprove st c = { st with cycleIdx := st.cycleIdx + 1 } := by
  unfold SVulD.applyImprove
  rw [if_neg h]

theorem svuld_validStep_bestF1 {M : Type} (mp : ℕ) (st : SVulD.TrainState M)
    (c : ℚ × ℚ × M) :
    (SVulD.validStep mp st c).bestF1 = (SVulD.applyImprove st c).bestF1 := rfl

theorem svuld_validStep_disk {M : Type} (mp : ℕ) (st : SVulD.TrainState M)
    (c : ℚ × ℚ × M) :
    (SVulD.validStep mp st c).disk = (SVulD.applyImprove st c).disk := rfl

theorem svuld_run_cons {M : Type} (mp : ℕ) (c : ℚ × ℚ × M)
    (cs : List (ℚ × ℚ × M)) (st : SVulD.TrainState M) :
    SVulD.run mp (c :: cs) st
      = if (SVulD.validStep mp st c).es.early_stop then SVulD.validStep mp st c
        else SVulD.run mp cs (SVulD.validStep mp st c) := rfl

theorem svuld_ckptInv_init {M : Type} :
    SVulD.CkptInv ([] : List (ℚ × ℚ × M)) SVulD.initState := by
  refine ⟨by simp, fun _ => rfl, ?_⟩
  intro i m h
  simp [SVulD.initState] at h

theorem svuld_ckptInv_step {M : Type} (mp : ℕ)
    (processed : List (ℚ × ℚ × M)) (st : SVulD.TrainState M) (c : ℚ × ℚ × M)
    (h : SVulD.CkptInv processed st) :
    SVulD.CkptInv (processed ++ [c]) (SVulD.validStep mp st c) := by
  obtain ⟨h1, h2, h3⟩ := h
  rw [SVulD.CkptInv, svuld_validStep_bestF1, svuld_validStep_disk]
  by_cases himp : st.bestF1 < c.1
  · rw [svuld_applyImprove_pos st c himp]
    refine ⟨?_, ?_, ?_⟩
    · intro x hx
      rcases List.mem_append.mp hx with hx | hx
      · exact le_of_lt (lt_of_le_of_lt (h1 x hx) himp)
      · simp at hx
        rw [hx]
    · intro hd
      simp at hd
    · intro i m hd
      simp at hd
      refine ⟨c.2.1, ?_⟩
      rw [← hd.2]
      simp
  · rw [svuld_applyImprove_neg st c himp]
    refine ⟨?_, ?_, ?_⟩
    · intro x hx
      rcases List.mem_append.mp hx with hx | hx
      · simpa using h1 x hx
      · simp at hx
        rw [hx]
        simpa using le_of_not_lt himp
    · intro hd
      simp at hd
      simpa using h2 hd
    · intro i m hd
      simp at hd
      obtain ⟨l, hl⟩ := h3 i m hd
      exact ⟨l, by simpa using List.mem_append_left [c] hl⟩

theorem svuld_ckptInv_run {M : Type} (mp : ℕ) (cycles : List (ℚ × ℚ × M)) :
    ∀ (st : SVulD.TrainState M) (processed : List (ℚ × ℚ × M)),
      SVulD.CkptInv processed st →
      ∃ pre suf, cycles = pre ++ suf ∧
        SVulD.CkptInv (processed ++ pre) (SVulD.run mp cycles st) := by
  induction cycles with
  | nil =>
    intro st processed h
    exact ⟨[], [], rfl, by simpa using h⟩
  | cons c cs ih =>
    intro st processed h
    have h1 := svuld_ckptInv_step mp processed st c h
    cases hstop : (SVulD.validStep mp st c).es.early_stop with
    | true =>
      refine ⟨[c], cs, rfl, ?_⟩
      rw [svuld_run_cons, if_pos hstop]
      simpa using h1
    | false =>
      obtain ⟨pre, suf, hsplit, hinv⟩ := ih (SVulD.validStep mp st c)
        (processed ++ [c]) h1
      refine ⟨c :: pre, suf, by simp [hsplit], ?_⟩
      rw [svuld_run_cons, if_neg (by rw [hstop]; exact Bool.false_ne_true)]
      simpa using hinv

/-- Claim C1 counterexample: the claim says the SVulD checkpoint corresponds
to the validation cycle with the lowest validation loss.  In the code
(`src/sequence/SVulD/run.py:192-207`) the checkpoint is written on improved
validation F1, and the validation loss only feeds the early-stopping counter.
Concrete run with cycles `(f1, loss, snapshot) = (1, 10, 11), (0, 5, 22)` and
patience 3: the checkpoint on disk is snapshot 11 from cycle 1, while cycle 2
has the strictly lower validation loss (5 < 10) and snapshot 22 ≠ 11 — so the
checkpoint is not the one from the lowest-loss cycle. -/
theorem c1_counterexample :
    (SVulD.run 3 [((1 : ℚ), (10 : ℚ), (11 : ℕ)), (0, 5, 22)]
      SVulD.initState).disk = some (1, 11) ∧
    ((5 : ℚ) < 10 ∧ (11 : ℕ) ≠ 22) := by decide

/-- Claim C1 (amended): in both trainers the persisted checkpoint corresponds
to the validation cycle with the best-seen validation F1: for the processed
prefix `pre` of the validation cycles, the checkpoint on disk (if any) is the
snapshot of a processed cycle whose F1 equals the running best, every
processed cycle's F1 is at most that best, and a missing checkpoint means no
cycle improved on the initial best of 0.  The keep-best contract is the same
in both variants (strict F1 improvement); SVulD's early stopping monitors the
validation loss, but its checkpoint is keyed to F1, not to the lowest loss. -/
theorem c1_checkpoint_best_f1 (maxPatience : ℕ) (cyclesR : List (ℚ × ℕ))
    (m0 : ℕ) (cyclesS : List (ℚ × ℚ × ℕ)) :
    (∃ pre suf, cyclesR = pre ++ suf ∧
      Reveal.CkptInv pre
        (Reveal.run maxPatience cyclesR (Reveal.initState m0))) ∧
    (∃ pre suf, cyclesS = pre ++ suf ∧
      SVulD.CkptInv pre (SVulD.run maxPatience cyclesS SVulD.initState)) := by
  constructor
  · obtain ⟨pre, suf, hsplit, hinv⟩ :=
      reveal_ckptInv_run maxPatience cyclesR (Reveal.initState m0) []
        (reveal_ckptInv_init m0)
    exact ⟨pre, suf, hsplit, by simpa using hinv⟩
  · obtain ⟨pre, suf, hsplit, hinv⟩ :=
      svuld_ckptInv_run maxPatience cyclesS SVulD.initState [] svuld_ckptInv_init
    exact ⟨pre, suf, hsplit, by simpa using hinv⟩

/-- Witness for `c1_checkpoint_best_f1` at the concrete runs used elsewhere in
this development. -/
theorem c1_witness :
    ∃ pre suf,
      [((1 : ℚ), (10 : ℚ), (11 : ℕ)), (0, 5, 22)] = pre ++ suf ∧
      SVulD.CkptInv pre
        (SVulD.run 3 [((1 : ℚ), (10 : ℚ), (11 : ℕ)), (0, 5, 22)]
          SVulD.initState) :=
  (c1_checkpoint_best_f1 3 [((1 : ℚ), (1 : ℕ))] 0
    [((1 : ℚ), (10 : ℚ), (11 : ℕ)), (0, 5, 22)]).2

/-- Claim C5: a `KeyboardInterrupt` during the Reveal training loop is
recovered locally: whatever the interrupt point, `train` returns normally
(`Except.ok`, never an error — the handler does not re-raise), execution
proceeds to the post-training test phase (which loads the checkpoint file),
and if a best snapshot had been recorded it is restored into the in-memory
model and coincides with the checkpoint on disk. -/
theorem c5_interrupt_restores_best (maxPatience : ℕ) (cycles : List (ℚ × ℕ))
    (k : ℕ) (m0 : ℕ) :
    ∃ st, Reveal.trainResult maxPatience cycles (some k) m0 = Except.ok st ∧
      Reveal.trainAndTest maxPatience cycles (some k) m0
        = Reveal.loadBest st.disk ∧
      ∀ b, st.bestModel = some b →
        st.model = b ∧ ∃ i, st.disk = some (i, b) := by
  refine ⟨_, rfl, rfl, ?_⟩
  intro b hb
  have hD : ({ Reveal.run maxPatience (cycles.take k) (Reveal.initState m0) with
        model := (Reveal.run maxPatience (cycles.take k)
          (Reveal.initState m0)).bestModel.getD
            (Reveal.run maxPatience (cycles.take k)
              (Reveal.initState m0)).model } : Reveal.TrainState ℕ).bestModel
      = (Reveal.run maxPatience (cycles.take k)
          (Reveal.initState m0)).bestModel := rfl
  rw [hD] at hb
  constructor
  · show (Reveal.run maxPatience (cycles.take k)
        (Reveal.initState m0)).bestModel.getD _ = b
    rw [hb]
    rfl
  · obtain ⟨pre, suf, hsplit, hinv⟩ :=
      reveal_ckptInv_run maxPatience (cycles.take k) (Reveal.initState m0) []
        (reveal_ckptInv_init m0)
    obtain ⟨i, hi⟩ := hinv.2.2.2 b hb
    exact ⟨i, hi⟩

/-- Witness for `c5_interrupt_restores_best`: interrupt after one improving
cycle; the restored model and checkpoint both hold snapshot 42. -/
theorem c5_witness :
    ∃ st, Reveal.trainResult 5 [((1 : ℚ), (42 : ℕ))] (some 1) 0
        = Except.ok st ∧
      Reveal.trainAndTest 5 [((1 : ℚ), (42 : ℕ))] (some 1) 0
        = Reveal.loadBest st.disk ∧
      ∀ b, st.bestModel = some b →
        st.model = b ∧ ∃ i, st.disk = some (i, b) :=
  c5_interrupt_restores_best 5 [((1 : ℚ), (42 : ℕ))] 1 0

/-- Claim C3 counterexample: the SVulD test export is the DataFrame's records
in dataset order with boolean `pred` values — with dataset indices `[2, 1]`
the exported array is not sorted ascending by id, and its `pred` fields are
JSON booleans, not integers 0/1. -/
theorem c3_counterexample :
    ¬ List.Sorted idLe (SVulD.testExport [2, 1] [true, true]) ∧
    (SVulD.testExport [2, 1] [true, true]).map Prod.snd
      = [JVal.jbool true, JVal.jbool true] := by decide

/-- Claim C3 (amended): the Reveal test export is a JSON array of
`{id, pred}` records sorted ascending by id, a permutation of the zipped
(id, prediction) records, with every `pred` an integer 0 or 1 (argmax of a
two-class row); the SVulD test export instead keeps the records in dataset
order (its id column equals the input index list unchanged) and every `pred`
it writes is a JSON boolean. -/
theorem c3_test_export_format (ids : List ℤ) (probs : List (ℚ × ℚ))
    (indices : List ℤ) (bpreds : List Bool)
    (hlen : indices.length ≤ bpreds.length) :
    List.Sorted idLe (Reveal.testExport ids (probs.map argmax2)) ∧
    List.Perm (Reveal.testExport ids (probs.map argmax2))
      ((ids.zip (probs.map argmax2)).map (fun c => (c.1, JVal.jint c.2))) ∧
    (∀ e ∈ Reveal.testExport ids (probs.map argmax2),
      e.2 = JVal.jint 0 ∨ e.2 = JVal.jint 1) ∧
    (SVulD.testExport indices bpreds).map Prod.fst = indices ∧
    (∀ e ∈ SVulD.testExport indices bpreds, ∃ b, e.2 = JVal.jbool b) := by
  refine ⟨List.sorted_insertionSort idLe _, List.perm_insertionSort idLe _,
    ?_, ?_, ?_⟩
  · intro e he
    rw [Reveal.testExport, List.mem_insertionSort] at he
    obtain ⟨c, hc, rfl⟩ := List.mem_map.mp he
    obtain ⟨_, hp⟩ := List.of_mem_zip hc
    obtain ⟨q, _, hqe⟩ := List.mem_map.mp hp
    show JVal.jint c.2 = JVal.jint 0 ∨ JVal.jint c.2 = JVal.jint 1
    rw [← hqe]
    unfold argmax2
    split
    · right; rfl
    · left; rfl
  · rw [SVulD.testExport, List.map_map]
    exact List.map_fst_zip indices bpreds hlen
  · intro e he
    obtain ⟨c, _, rfl⟩ := List.mem_map.mp he
    exact ⟨c.2, rfl⟩

/-- Witness for `c3_test_export_format`: concrete export of ids `[5, 2]` with
probability rows giving predictions `[1, 0]`, and a two-record SVulD export. -/
theorem c3_witness :
    List.Sorted idLe
      (Reveal.testExport [5, 2] ([((0 : ℚ), (1 : ℚ)), (1, 0)].map argmax2)) ∧
    (SVulD.testExport [3, 4] [true, false]).map Prod.fst = [3, 4] :=
  ⟨(c3_test_export_format [5, 2] [((0 : ℚ), (1 : ℚ)), (1, 0)] [3, 4]
      [true, false] (by decide)).1,
    (c3_test_export_format [5, 2] [((0 : ℚ), (1 : ℚ)), (1, 0)] [3, 4]
      [true, false] (by decide)).2.2.2.1⟩

/-- Claim C4 counterexample: SVulD's `detect` does read ground-truth labels
from its input and does compute a metric from them — flipping the single
label of a one-example input (everything else fixed) changes the returned
result, because the result's first component is the accuracy computed from
the labels (0 when the label is 0, 1 when the label is 1, with the model
predicting positive). -/
theorem c4_counterexample :
    (SVulD.detect (fun _ : Unit => ((0 : ℚ), (1 : ℚ))) [()] [0] [5]).1
      ≠ (SVulD.detect (fun _ : Unit => ((0 : ℚ), (1 : ℚ))) [()] [1] [5]).1 := by
  have h0 : (SVulD.detect (fun _ : Unit => ((0 : ℚ), (1 : ℚ))) [()] [0] [5]).1
      = 0 := by
    simp [SVulD.detect, SVulD.predNat, accuracy_score]
    norm_num
  have h1 : (SVulD.detect (fun _ : Unit => ((0 : ℚ), (1 : ℚ))) [()] [1] [5]).1
      = 1 := by
    simp [SVulD.detect, SVulD.predNat, accuracy_score]
    norm_num
  rw [h0, h1]
  norm_num

/-- Claim C4 (amended): Reveal's `predict` ignores the targets in its input
(its output depends only on the feature column) and returns only the argmax
predictions — no ids; SVulD's `detect` returns per-example predictions and
ids that are independent of the labels, but it additionally reads the label
column of its input and returns an accuracy metric computed from those
labels. -/
theorem c4_detect_predict (F : Type) (m : F → ℚ × ℚ)
    (batches batches2 : List (F × ℕ × ℤ))
    (hfeat : batches.map Prod.fst = batches2.map Prod.fst)
    (contrasts : List F) (labels labels2 : List ℕ) (indices : List ℤ) :
    Reveal.predict m batches = Reveal.predict m batches2 ∧
    (SVulD.detect m contrasts labels indices).2
      = (SVulD.detect m contrasts labels2 indices).2 ∧
    (SVulD.detect m contrasts labels indices).2.1 = indices ∧
    (SVulD.detect m contrasts labels indices).2.2
      = contrasts.map (fun x => decide ((1 : ℚ) / 2 < (m x).2)) ∧
    (SVulD.detect m contrasts labels indices).1
      = accuracy_score (labels.zip
          ((contrasts.map (fun x => decide ((1 : ℚ) / 2 < (m x).2))).map
            SVulD.predNat)) := by
  refine ⟨?_, rfl, rfl, rfl, rfl⟩
  unfold Reveal.predict
  calc batches.map (fun b => argmax2 (m b.1))
      = (batches.map Prod.fst).map (fun f => argmax2 (m f)) := by
        rw [List.map_map]; rfl
    _ = (batches2.map Prod.fst).map (fun f => argmax2 (m f)) := by rw [hfeat]
    _ = batches2.map (fun b => argmax2 (m b.1)) := by
        rw [List.map_map]; rfl

/-- Witness for `c4_detect_predict`: same features with different labels give
the same predictions; the ids come back unchanged. -/
theorem c4_witness :
    Reveal.predict (fun _ : Unit => ((0 : ℚ), (1 : ℚ))) [((), 0, 9)]
      = Reveal.predict (fun _ : Unit => ((0 : ℚ), (1 : ℚ))) [((), 1, 9)] ∧
    (SVulD.detect (fun _ : Unit => ((0 : ℚ), (1 : ℚ))) [()] [0] [5]).2.1
      = [5] :=
  ⟨(c4_detect_predict Unit (fun _ => ((0 : ℚ), (1 : ℚ))) [((), 0, 9)]
      [((), 1, 9)] rfl [()] [0] [1] [5]).1,
    (c4_detect_predict Unit (fun _ => ((0 : ℚ), (1 : ℚ))) [((), 0, 9)]
      [((), 1, 9)] rfl [()] [0] [1] [5]).2.2.1⟩

/-! ## Zero-shot merge lemmas -/

theorem readSplits_ok {α : Type} (f : ℕ → Option (List α)) :
    ∀ n, (∀ j < n, (f j).isSome = true) →
      ∃ l, ZeroShot.readSplits f n = Except.ok l := by
  intro n
  induction n with
  | zero => intro h; exact ⟨[], rfl⟩
  | succ n ih =>
    intro h
    obtain ⟨l, hl⟩ := ih (fun j hj => h j (Nat.lt_succ_of_lt hj))
    obtain ⟨x, hx⟩ := Option.isSome_iff_exists.mp (h n (Nat.lt_succ_self n))
    exact ⟨l ++ x, by simp [ZeroShot.readSplits, hl, hx]⟩

theorem readSplits_concat {α : Type} (f : ℕ → Option (List α)) (g : ℕ → List α) :
    ∀ n, (∀ j < n, f j = some (g j)) →
      ZeroShot.readSplits f n = Except.ok (ZeroShot.splitConcat g n) := by
  intro n
  induction n with
  | zero => intro h; rfl
  | succ n ih =>
    intro h
    have hn := h n (Nat.lt_succ_self n)
    have hp := ih (fun j hj => h j (Nat.lt_succ_of_lt hj))
    simp [ZeroShot.readSplits, ZeroShot.splitConcat, hp, hn]

theorem readSplits_error_val {α : Type} (f : ℕ → Option (List α)) :
    ∀ n e, ZeroShot.readSplits f n = Except.error e → e = "FileNotFoundError" := by
  intro n
  induction n with
  | zero =>
    intro e h
    simp [ZeroShot.readSplits] at h
  | succ n ih =>
    intro e h
    unfold ZeroShot.readSplits at h
    cases hok : ZeroShot.readSplits f n with
    | error e2 =>
      rw [hok] at h
      simp at h
      exact h ▸ ih e2 hok
    | ok l =>
      rw [hok] at h
      cases hf : f n with
      | none =>
        rw [hf] at h
        simp at h
        exact h.symm
      | some x =>
        rw [hf] at h
        simp at h

theorem readSplits_fnf {α : Type} (f : ℕ → Option (List α)) :
    ∀ n, (∃ j, j < n ∧ f j = none) →
      ZeroShot.readSplits f n = Except.error "FileNotFoundError" := by
  intro n
  induction n with
  | zero =>
    rintro ⟨j, hj, _⟩
    omega
  | succ n ih =>
    rintro ⟨j, hj, hnone⟩
    by_cases hjn : j < n
    · have hprev := ih ⟨j, hjn, hnone⟩
      simp [ZeroShot.readSplits, hprev]
    · have hje : j = n := by omega
      subst hje
      cases hok : ZeroShot.readSplits f j with
      | error e =>
        have := readSplits_error_val f j e hok
        subst this
        simp [ZeroShot.readSplits, hok]
      | ok l =>
        simp [ZeroShot.readSplits, hok, hnone]

theorem mergeFrom_mem {α : Type} (fs : ℕ → ℕ → Option (List α)) (sc p : ℕ)
    (hsc : 0 < sc) (L : List α)
    (hread : ZeroShot.readSplits (fs p) sc = Except.ok L) :
    ∀ n q, q ≤ p → p < q + n →
      (∀ q2, q ≤ q2 → q2 ≤ p → ∀ j < sc, (fs q2 j).isSome = true) →
      (p, L) ∈ (ZeroShot.mergeFrom fs sc q n).1 := by
  intro n
  induction n with
  | zero =>
    intro q h1 h2 h3
    omega
  | succ n ih =>
    intro q h1 h2 h3
    obtain ⟨x0, hx0⟩ := Option.isSome_iff_exists.mp (h3 q le_rfl h1 0 hsc)
    by_cases hqp : q = p
    · subst hqp
      simp [ZeroShot.mergeFrom, hx0, hread]
    · have hq : q < p := lt_of_le_of_ne h1 hqp
      obtain ⟨lq, hlq⟩ := readSplits_ok (fs q) sc
        (fun j hj => h3 q le_rfl (le_of_lt hq) j hj)
      have hmem := ih (q + 1) (by omega) (by omega)
        (fun q2 ha hb j hj => h3 q2 (by omega) hb j hj)
      simp [ZeroShot.mergeFrom, hx0, hlq]
      exact Or.inr hmem

theorem mergeFrom_error {α : Type} (fs : ℕ → ℕ → Option (List α)) (sc p : ℕ)
    (hsc : 0 < sc)
    (hread : ZeroShot.readSplits (fs p) sc = Except.error "FileNotFoundError")
    (h0 : (fs p 0).isSome = true) :
    ∀ n q, q ≤ p → p < q + n →
      (∀ q2, q ≤ q2 → q2 < p → ∀ j < sc, (fs q2 j).isSome = true) →
      (ZeroShot.mergeFrom fs sc q n).2 = some "FileNotFoundError" ∧
      ∀ e ∈ (ZeroShot.mergeFrom fs sc q n).1, e.1 < p := by
  intro n
  induction n with
  | zero =>
    intro q h1 h2 h3
    omega
  | succ n ih =>
    intro q h1 h2 h3
    by_cases hqp : q = p
    · subst hqp
      obtain ⟨x0, hx0⟩ := Option.isSome_iff_exists.mp h0
      simp [ZeroShot.mergeFrom, hx0, hread]
    · have hq : q < p := lt_of_le_of_ne h1 hqp
      obtain ⟨x0, hx0⟩ := Option.isSome_iff_exists.mp (h3 q le_rfl hq 0 hsc)
      obtain ⟨lq, hlq⟩ := readSplits_ok (fs q) sc
        (fun j hj => h3 q le_rfl hq j hj)
      have hrec := ih (q + 1) (by omega) (by omega)
        (fun q2 ha hb j hj => h3 q2 (by omega) hb j hj)
      simp [ZeroShot.mergeFrom, hx0, hlq]
      exact ⟨hrec.1, hq, fun a b hab => hrec.2 (a, b) hab⟩

/-- Claim C6 counterexample: the merged output is not produced for every
prompt id whose split-0 file exists.  With `split_cnt = 1`, prompt 1's
split-0 file present but prompt 0 having no files at all, the merge loop
breaks at prompt 0 and writes nothing — prompt 1 gets no merged file. -/
theorem c6_counterexample :
    ZeroShot.mergeAll
        (fun q j => if q == 1 && j == 0 then some [(7 : ℕ)] else none) 1
      = ([], none) ∧
    (fun q j => if q == 1 && j == 0 then some [(7 : ℕ)] else none) 1 0
      = some [7] := by decide

/-- Claim C6 (amended): for every prompt id `p < 100` such that all split
files of every prompt `q ≤ p` are present (so the loop reaches `p` without
breaking or raising), the merge writes for `p` exactly the concatenation of
`p`'s per-split result arrays in ascending split-index order.  Prompts after
a gap (an earlier prompt with a missing split-0 file) and prompts ≥ 100 are
never merged. -/
theorem c6_merge_ascending_concat {α : Type} (fs : ℕ → ℕ → Option (List α))
    (sc p : ℕ) (g : ℕ → List α) (hsc : 0 < sc) (hp : p < 100)
    (hall : ∀ q ≤ p, ∀ j < sc, (fs q j).isSome = true)
    (hg : ∀ j < sc, fs p j = some (g j)) :
    (p, ZeroShot.splitConcat g sc) ∈ (ZeroShot.mergeAll fs sc).1 := by
  have hread := readSplits_concat (fs p) g sc hg
  exact mergeFrom_mem fs sc p hsc _ hread 100 0 (Nat.zero_le p) (by omega)
    (fun q2 _ hb j hj => hall q2 hb j hj)

/-- Witness for `c6_merge_ascending_concat`: the spec's concrete example —
`prompt_0_result_split_0.json = [a]` and `prompt_0_result_split_1.json = [b]`
(entries encoded as 1 and 2) with `split_cnt = 2` merge to `[a, b]`. -/
theorem c6_witness :
    (0, ZeroShot.splitConcat
        (fun j => if j == 0 then [(1 : ℕ)] else [2]) 2)
      ∈ (ZeroShot.mergeAll
          (fun q j =>
            if q == 0 && j == 0 then some [(1 : ℕ)]
            else if q == 0 && j == 1 then some [2] else none) 2).1 ∧
    ZeroShot.splitConcat (fun j => if j == 0 then [(1 : ℕ)] else [2]) 2
      = [1, 2] :=
  ⟨c6_merge_ascending_concat
      (fun q j =>
        if q == 0 && j == 0 then some [(1 : ℕ)]
        else if q == 0 && j == 1 then some [2] else none)
      2 0 (fun j => if j == 0 then [(1 : ℕ)] else [2])
      (by decide) (by decide) (by decide) (by decide),
    by decide⟩

/-- Claim C7 counterexample: a missing split-0 file does not surface an
error.  With `split_cnt = 2` and prompt 0 having a split-1 file but no
split-0 file, the merge loop silently breaks: no error is raised and no
merged file is written. -/
theorem c7_counterexample :
    ZeroShot.mergeAll
        (fun q j => if q == 0 && j == 1 then some [(5 : ℕ)] else none) 2
      = ([], none) ∧
    (fun q j => if q == 0 && j == 1 then some [(5 : ℕ)] else none) 0 1
      = some [5] := by decide

/-- Claim C7 (amended): subprocess failure is not detected during the
fan-out; if the first prompt `p` reached by the merge loop (all earlier
prompts complete) has its split-0 file present but some split file `j ≥ 1`
missing, the merge fails loudly with `FileNotFoundError` and writes no
merged file for `p` or any later prompt.  A missing split-0 file instead
terminates the loop silently (see the counterexample). -/
theorem c7_merge_missing_file_error {α : Type} (fs : ℕ → ℕ → Option (List α))
    (sc p j : ℕ) (hp : p < 100) (hj : j < sc) (hmiss : fs p j = none)
    (h0 : (fs p 0).isSome = true)
    (hprev : ∀ q < p, ∀ j2 < sc, (fs q j2).isSome = true) :
    (ZeroShot.mergeAll fs sc).2 = some "FileNotFoundError" ∧
    ∀ e ∈ (ZeroShot.mergeAll fs sc).1, e.1 < p := by
  have hsc : 0 < sc := Nat.lt_of_le_of_lt (Nat.zero_le j) hj
  have hread := readSplits_fnf (fs p) sc ⟨j, hj, hmiss⟩
  exact mergeFrom_error fs sc p hsc hread h0 100 0 (Nat.zero_le p) (by omega)
    (fun q2 _ hb j2 hj2 => hprev q2 hb j2 hj2)

/-- Witness for `c7_merge_missing_file_error`: prompt 0 has a split-0 file
but no split-1 file under `split_cnt = 2`; the merge errors and writes
nothing. -/
theorem c7_witness :
    (ZeroShot.mergeAll
        (fun q j => if q == 0 && j == 0 then some [(1 : ℕ)] else none) 2).2
      = some "FileNotFoundError" ∧
    ∀ e ∈ (ZeroShot.mergeAll
        (fun q j => if q == 0 && j == 0 then some [(1 : ℕ)] else none) 2).1,
      e.1 < 0 :=
  c7_merge_missing_file_error
    (fun q j => if q == 0 && j == 0 then some [(1 : ℕ)] else none)
    2 0 1 (by decide) (by decide) (by decide) (by decide) (by decide)

/-! ## GPU fan-out partition lemmas -/

theorem splitSizes_of_dvd (len sc : ℕ) (h : sc ∣ len) :
    ZeroShot.splitSizes len sc = List.replicate sc (len / sc) := by
  unfold ZeroShot.splitSizes
  have hm : len % sc = 0 := Nat.dvd_iff_mod_eq_zero.mp h
  rw [hm]
  simp

theorem takeChunks_length (ss : List ℕ) :
    ∀ l, (ZeroShot.takeChunks l ss).length = ss.length := by
  induction ss with
  | nil => intro l; rfl
  | cons s ss ih =>
    intro l
    simp [ZeroShot.takeChunks, ih]

theorem takeChunks_replicate_flatten (k : ℕ) :
    ∀ n l, l.length = n * k →
      ZeroShot.flattenChunks (ZeroShot.takeChunks l (List.replicate n k)) = l := by
  intro n
  induction n with
  | zero =>
    intro l h
    simp at h
    simp [ZeroShot.takeChunks, ZeroShot.flattenChunks, h]
  | succ n ih =>
    intro l h
    rw [List.replicate_succ]
    show l.take k ++ ZeroShot.flattenChunks
        (ZeroShot.takeChunks (l.drop k) (List.replicate n k)) = l
    rw [ih (l.drop k) (by simp [h, Nat.succ_mul])]
    exact List.take_append_drop k l

theorem takeChunks_replicate_chunkLength (k : ℕ) :
    ∀ n l, l.length = n * k →
      ∀ ch ∈ ZeroShot.takeChunks l (List.replicate n k), ch.length = k := by
  intro n
  induction n with
  | zero =>
    intro l h ch hch
    simp [ZeroShot.takeChunks] at hch
  | succ n ih =>
    intro l h ch hch
    rw [List.replicate_succ] at hch
    rcases List.mem_cons.mp hch with hch | hch
    · rw [hch, List.length_take]
      rw [Nat.succ_mul] at h
      omega
    · exact ih (l.drop k) (by simp [h, Nat.succ_mul]) ch hch

theorem flattenChunks_count_zero (g : ℕ) :
    ∀ chs : List (List ℕ),
      List.count g (ZeroShot.flattenChunks chs) = 0 →
      List.countP (fun ch => decide (g ∈ ch)) chs = 0 := by
  intro chs
  induction chs with
  | nil => intro h; rfl
  | cons c cs ih =>
    intro h
    rw [show ZeroShot.flattenChunks (c :: cs)
        = c ++ ZeroShot.flattenChunks cs from rfl, List.count_append] at h
    have h1 : List.count g c = 0 := by omega
    have h2 : List.count g (ZeroShot.flattenChunks cs) = 0 := by omega
    rw [List.countP_cons, ih h2]
    simp [List.count_eq_zero.mp h1]

theorem flattenChunks_count_one (g : ℕ) :
    ∀ chs : List (List ℕ),
      List.count g (ZeroShot.flattenChunks chs) = 1 →
      List.countP (fun ch => decide (g ∈ ch)) chs = 1 := by
  intro chs
  induction chs with
  | nil =>
    intro h
    simp [ZeroShot.flattenChunks] at h
  | cons c cs ih =>
    intro h
    rw [show ZeroShot.flattenChunks (c :: cs)
        = c ++ ZeroShot.flattenChunks cs from rfl, List.count_append] at h
    rw [List.countP_cons]
    by_cases hc : g ∈ c
    · have h1 : 0 < List.count g c := List.count_pos_iff_mem.mpr hc
      have h2 : List.count g (ZeroShot.flattenChunks cs) = 0 := by omega
      rw [flattenChunks_count_zero g cs h2]
      simp [hc]
    · have h0 : List.count g c = 0 := List.count_eq_zero.mpr hc
      rw [h0] at h
      simp at h
      rw [ih h]
      simp [hc]

/-- Claim C10: the fan-out script's guard fails exactly when `split_cnt` does
not divide the number of GPUs; when it divides, `np.array_split` partitions
the GPU list into exactly `split_cnt` contiguous groups of exactly
`len(all_gpus) // split_cnt` GPUs each, whose concatenation is the original
list, and (for a duplicate-free GPU list) each GPU appears in exactly one
group — i.e. on exactly one subprocess command line. -/
theorem c10_gpu_partition (gpus : List ℕ) (sc : ℕ) (hsc : 0 < sc) :
    (ZeroShot.assertOK gpus sc = true ↔ sc ∣ gpus.length) ∧
    (sc ∣ gpus.length →
      (ZeroShot.array_split gpus sc).length = sc ∧
      (∀ ch ∈ ZeroShot.array_split gpus sc, ch.length = gpus.length / sc) ∧
      ZeroShot.flattenChunks (ZeroShot.array_split gpus sc) = gpus ∧
      (gpus.Nodup → ∀ g ∈ gpus,
        List.countP (fun ch => decide (g ∈ ch))
          (ZeroShot.array_split gpus sc) = 1)) := by
  constructor
  · unfold ZeroShot.assertOK
    rw [beq_iff_eq]
    exact Nat.dvd_iff_mod_eq_zero.symm
  · intro hdvd
    have hlen : gpus.length = sc * (gpus.length / sc) :=
      (Nat.mul_div_cancel' hdvd).symm
    unfold ZeroShot.array_split
    rw [splitSizes_of_dvd gpus.length sc hdvd]
    refine ⟨?_, ?_, ?_, ?_⟩
    · rw [takeChunks_length]
      simp
    · intro ch hch
      exact takeChunks_replicate_chunkLength (gpus.length / sc) sc gpus hlen ch hch
    · exact takeChunks_replicate_flatten (gpus.length / sc) sc gpus hlen
    · intro hnd g hg
      apply flattenChunks_count_one
      rw [takeChunks_replicate_flatten (gpus.length / sc) sc gpus hlen]
      exact List.count_eq_one_of_mem hnd hg

/-- Witness for `c10_gpu_partition` at the script's constants
`all_gpus = [0, 1, 6, 7]`, `split_cnt = 2`: the assert passes and the GPUs
are split into the two contiguous halves `[0, 1]` and `[6, 7]`. -/
theorem c10_witness :
    ZeroShot.assertOK ZeroShot.all_gpus ZeroShot.split_cnt = true ∧
    (ZeroShot.array_split ZeroShot.all_gpus ZeroShot.split_cnt).length
      = ZeroShot.split_cnt ∧
    ZeroShot.array_split ZeroShot.all_gpus ZeroShot.split_cnt
      = [[0, 1], [6, 7]] :=
  ⟨(c10_gpu_partition ZeroShot.all_gpus ZeroShot.split_cnt
      (by decide)).1.mpr (by decide),
    ((c10_gpu_partition ZeroShot.all_gpus ZeroShot.split_cnt
      (by decide)).2 (by decide)).1,
    by decide⟩
